import Mathlib

/-!
Shallow embedding of the two core components of
`src/pkg/ui/react-app/src/pages/graph/ExpressionInput.tsx`:

* `CustomHTTPPrometheusClient` — a metadata client issuing label / series /
  metadata / flags queries against a Prometheus-style HTTP API, normalising
  transport failures, intolerable HTTP statuses, error envelopes and missing
  payloads into degrade-to-empty results plus an error-handler notification;
* `HistoryCompleteStrategy` — a completion-strategy decorator merging a base
  completion result with options built from past queries.

Modelling conventions:
* A JS promise that either resolves with a value or rejects with an error is
  `Except String α` (errors are carried as their message string).
* `URLSearchParams` is an association list `List (String × String)`; its
  `toString` is modelled without percent-encoding (none of the verified
  properties depend on the encoding of individual characters).
* A JS `Set<string>` populated by repeated `add` is a duplicate-free list in
  insertion order (`addLabelName` / value insertion below).
* A `SeriesRecord` (a JSON object of label → value) is an association list in
  `Object.entries` order.
* `Record<string, T>` is an association list; the `{}` default is `[]`.
* The injected transport (`fetchFn`) plus `res.json()` is modelled as its
  outcome: `Except String (HTTPResponse T)` — either a rejection or a response
  whose body has been parsed into the API envelope.
* The optional `errorHandler` callback is modelled by a `Bool` flag
  (configured or not) together with the list of arguments it received, in
  call order, returned alongside each operation's resolved value.  That the
  operations are total Lean functions returning a value (never an `Except`)
  is the model of "the returned promise never rejects".
* The `warnings` field of the envelope is never read by the code and is
  omitted from the model.
-/

/-- Status codes for which the Prometheus API still returns a valid JSON body
(`badRequest` in the source). -/
def badRequest : Nat := 400

/-- Status code 422 (`unprocessableEntity` in the source). -/
def unprocessableEntity : Nat := 422

/-- Status code 503 (`serviceUnavailable` in the source). -/
def serviceUnavailable : Nat := 503

/-- The `APIResponse<T>` envelope interface of the source (the unused
`warnings` field is omitted). -/
structure APIResponse (T : Type) where
  status : String
  data : Option T := none
  error : Option String := none
deriving DecidableEq

/-- The subset of a fetch `Response` that `fetchAPI` reads: `ok`, `status`,
`statusText`, and the JSON-parsed body. -/
structure HTTPResponse (T : Type) where
  ok : Bool
  status : Nat
  statusText : String
  body : APIResponse T
deriving DecidableEq

/-- Fallback message thrown when `status == "error"` but the `error` field is
absent (string literal in `fetchAPI`). -/
def missingErrorFieldMsg : String := "missing \"error\" field in response JSON"

/-- Message thrown when the `data` field is absent (string literal in
`fetchAPI`). -/
def missingDataFieldMsg : String := "missing \"data\" field in response JSON"

namespace CustomHTTPPrometheusClient

/-- The final `.then` of `fetchAPI`: envelope interpretation.  If
`status === 'error'`, throw the envelope's `error` string, or the fixed
fallback when absent; then, if `data` is absent, throw the fixed missing-data
message; otherwise return `data`. -/
def handleEnvelope {T : Type} (apiRes : APIResponse T) : Except String T :=
  if apiRes.status = "error" then
    Except.error (match apiRes.error with
      | some e => e
      | none => missingErrorFieldMsg)
  else
    match apiRes.data with
    | none => Except.error missingDataFieldMsg
    | some d => Except.ok d

/-- `fetchAPI`: propagate a transport rejection; throw `statusText` when the
response is not ok and its status is none of 400/422/503; otherwise interpret
the parsed envelope. -/
def fetchAPI {T : Type} (transport : Except String (HTTPResponse T)) :
    Except String T :=
  match transport with
  | Except.error e => Except.error e
  | Except.ok res =>
    if res.ok = false ∧ res.status ∉ [badRequest, unprocessableEntity, serviceUnavailable] then
      Except.error res.statusText
    else
      handleEnvelope res.body

/-- One record of `series` output: a JSON object mapping label names to label
values, as an association list in `Object.entries` order. -/
abbrev SeriesRecord := List (String × String)

/-- One metadata record (`MetricMetadata` from the client library): metric
type, help text and unit. -/
structure MetricMetadata where
  type : String
  help : String
  unit : String
deriving DecidableEq

/-- The `.catch` wrapper shared by every public operation: an `.ok` value is
returned as-is with no handler call; an `.error` resolves to the operation's
typed empty default, notifying the error handler (when configured) exactly
once with the failure. -/
def runCatch {T : Type} (handlerConfigured : Bool) (defaultVal : T)
    (r : Except String T) : T × List String :=
  match r with
  | Except.ok v => (v, [])
  | Except.error e => (defaultVal, if handlerConfigured then [e] else [])

/-- The `Set`-insertion step of the derivation inside `labelNames(metricName)`:
skip the reserved `__name__` key, then `labelNames.add(key)`. -/
def addLabelName (acc : List String) (key : String) : List String :=
  if key = "__name__" then acc
  else if key ∈ acc then acc
  else acc ++ [key]

/-- The derivation in `labelNames(metricName)`: collect the distinct keys of
all series records, in first-insertion order, excluding `__name__`
(`Array.from(labelNames)` of the populated `Set`). -/
def labelNamesFromSeries (series : List SeriesRecord) : List String :=
  series.foldl (fun acc labelSet => labelSet.foldl (fun a kv => addLabelName a kv.1) acc) []

/-- The `Set`-insertion step of the derivation inside
`labelValues(labelName, metricName)`: skip the reserved `__name__` key (the
`continue`), then add the value when the key equals the requested label. -/
def addLabelValue (labelName : String) (acc : List String) (kv : String × String) :
    List String :=
  if kv.1 = "__name__" then acc
  else if kv.1 = labelName then
    (if kv.2 ∈ acc then acc else acc ++ [kv.2])
  else acc

/-- The derivation in `labelValues(labelName, metricName)`: distinct values of
`labelName` across all series records, excluding the reserved key. -/
def labelValuesFromSeries (labelName : String) (series : List SeriesRecord) :
    List String :=
  series.foldl (fun acc labelSet => labelSet.foldl (addLabelValue labelName) acc) []

/-- `series(metricName, matchers?, labelName?)`: a single `fetchAPI` call on the
series endpoint, caught into the empty-list default.  (`metricName`, `matchers`
and `labelName` shape only the outbound request, modelled separately by
`seriesRequest`; `seriesResp` is the outcome of that request.) -/
def series (handlerConfigured : Bool)
    (seriesResp : Except String (HTTPResponse (List SeriesRecord))) :
    List SeriesRecord × List String :=
  runCatch handlerConfigured [] (fetchAPI seriesResp)

/-- `labelNames(metricName?)`.  When `metricName` is `undefined` or the empty
string: one `fetchAPI` call on the labels endpoint, caught into `[]`.
Otherwise: `series(metricName)` followed by the pure key derivation (any
failure is caught inside `series`, which then yields no records). -/
def labelNames (handlerConfigured : Bool) (metricName : Option String)
    (labelsResp : Except String (HTTPResponse (List String)))
    (seriesResp : Except String (HTTPResponse (List SeriesRecord))) :
    List String × List String :=
  match metricName with
  | none => runCatch handlerConfigured [] (fetchAPI labelsResp)
  | some m =>
    if m = "" then runCatch handlerConfigured [] (fetchAPI labelsResp)
    else
      let sr := series handlerConfigured seriesResp
      (labelNamesFromSeries sr.1, sr.2)

/-- `labelValues(labelName, metricName?, matchers?)`.  When `metricName` is
absent or empty (`!metricName || metricName.length === 0`): one `fetchAPI`
call on the values endpoint, caught into `[]`.  Otherwise:
`series(metricName, matchers, labelName)` followed by the pure value
derivation. -/
def labelValues (handlerConfigured : Bool) (labelName : String)
    (metricName : Option String)
    (valuesResp : Except String (HTTPResponse (List String)))
    (seriesResp : Except String (HTTPResponse (List SeriesRecord))) :
    List String × List String :=
  match metricName with
  | none => runCatch handlerConfigured [] (fetchAPI valuesResp)
  | some m =>
    if m.length = 0 then runCatch handlerConfigured [] (fetchAPI valuesResp)
    else
      let sr := series handlerConfigured seriesResp
      (labelValuesFromSeries labelName sr.1, sr.2)

/-- `metricMetadata()`: one `fetchAPI` call on the metadata endpoint, caught
into the empty record `{}` (modelled as `[]`). -/
def metricMetadata (handlerConfigured : Bool)
    (metadataResp : Except String (HTTPResponse (List (String × List MetricMetadata)))) :
    List (String × List MetricMetadata) × List String :=
  runCatch handlerConfigured [] (fetchAPI metadataResp)

/-- `metricNames()`: exactly `labelValues('__name__')` (metric name absent, so
the series response is never consulted). -/
def metricNames (handlerConfigured : Bool)
    (valuesResp : Except String (HTTPResponse (List String)))
    (seriesResp : Except String (HTTPResponse (List SeriesRecord))) :
    List String × List String :=
  labelValues handlerConfigured "__name__" none valuesResp seriesResp

/-- `flags()`: one `fetchAPI` call on the flags endpoint, caught into the empty
record `{}` (modelled as `[]`). -/
def flags (handlerConfigured : Bool)
    (flagsResp : Except String (HTTPResponse (List (String × String)))) :
    List (String × String) × List String :=
  runCatch handlerConfigured [] (fetchAPI flagsResp)

/-- `URLSearchParams.toString()` on an association list (percent-encoding of
individual characters omitted). -/
def urlSearchParamsToString (params : List (String × String)) : String :=
  String.intercalate "&" (params.map (fun p => p.1 ++ "=" ++ p.2))

/-- `labelsEndpoint()`. -/
def labelsEndpoint (apiPrefix : String) : String := apiPrefix ++ "/labels"

/-- `labelValuesEndpoint()` (with the `:name` placeholder). -/
def labelValuesEndpoint (apiPrefix : String) : String := apiPrefix ++ "/label/:name/values"

/-- `seriesEndpoint()`. -/
def seriesEndpoint (apiPrefix : String) : String := apiPrefix ++ "/series"

/-- The parts of `RequestInit` the client sets besides headers: the optional
`method` and the optional form body.  A `none` method means the fetch default
(GET); a `none` body means no body is sent. -/
structure RequestInit where
  method : Option String := none
  body : Option (List (String × String)) := none
deriving DecidableEq

/-- `buildRequest(endpoint, params)`: for GET the params are appended to the
URI as a query string and the body is `null`; otherwise the URI is the bare
endpoint and the body carries the params. -/
def buildRequest (httpMethod : String) (endpoint : String)
    (params : List (String × String)) :
    String × Option (List (String × String)) :=
  if httpMethod = "GET" then
    (endpoint ++ "?" ++ urlSearchParamsToString params, none)
  else
    (endpoint, some params)

/-- The request issued by the direct (metric-less) branch of `labelNames`:
`buildRequest` on the labels endpoint with the window params, fetched with
`method: this.httpMethod` and the built body. -/
def labelNamesRequest (httpMethod apiPrefix startS endS : String) :
    String × RequestInit :=
  let r := buildRequest httpMethod (labelsEndpoint apiPrefix) [("start", startS), ("end", endS)]
  (r.1, { method := some httpMethod, body := r.2 })

/-- The request issued by `series`: `buildRequest` on the series endpoint with
the window params plus the `match[]` selector, fetched with
`method: this.httpMethod` and the built body. -/
def seriesRequest (httpMethod apiPrefix startS endS selector : String) :
    String × RequestInit :=
  let r := buildRequest httpMethod (seriesEndpoint apiPrefix)
    [("start", startS), ("end", endS), ("match[]", selector)]
  (r.1, { method := some httpMethod, body := r.2 })

/-- `labelValuesEndpoint().replace(/:name/gi, labelName)`: the `:name`
placeholder of the fixed `label/:name/values` template substituted with the
label name (modelled as direct concatenation, which is what the regex
replacement produces on this template whenever `apiPrefix` itself contains no
occurrence of `:name`). -/
def labelValuesEndpointFor (apiPrefix labelName : String) : String :=
  apiPrefix ++ "/label/" ++ labelName ++ "/values"

/-- The request issued by the direct (metric-less) branch of `labelValues`.
The source bypasses `buildRequest` here: the URI is the values endpoint with
`:name` replaced by the label name plus the params as a query string, and the
fetch init carries only headers — no `method` and no `body` — so the
configured `httpMethod` is never consulted on this path. -/
def labelValuesDirectRequest (apiPrefix labelName startS endS : String) :
    String × RequestInit :=
  (labelValuesEndpointFor apiPrefix labelName ++ "?" ++
      urlSearchParamsToString [("start", startS), ("end", endS)],
    {})

end CustomHTTPPrometheusClient

/-- One autocompletion option (`Completion` from the autocomplete library,
restricted to the fields this code sets or forwards).  `apply` is the text
inserted on selection (always a string here). -/
structure CompletionOption where
  label : String
  detail : Option String := none
  apply : String
  info : Option String := none
deriving DecidableEq

/-- A `CompletionResult`: insertion range (fields `from` and `to` in the
source, renamed `fromPos` / `toPos` since both words are reserved in Lean),
ordered options and the `validFor` constraint (the source text of the regex,
or `none`). -/
structure CompletionResult where
  fromPos : Nat
  toPos : Nat
  options : List CompletionOption
  validFor : Option String := none
deriving DecidableEq

namespace HistoryCompleteStrategy

/-- Source text of the `validFor` regex of the history candidate set:
contiguous runs of letters, digits, underscore or colon. -/
def historyValidForPattern : String := "^[a-zA-Z0-9_:]+$"

/-- The `detail` marker identifying an option as historical. -/
def pastQueryDetail : String := "past query"

/-- The option built from one history entry `q`: label is `q` when
`q.length < 80`, else the first 76 characters followed by `'...'`; `apply` is
always the full entry; `info` is the full entry exactly when the length check
failed. -/
def historyOption (q : String) : CompletionOption :=
  { label := if q.length < 80 then q else (q.take 76) ++ "..."
    detail := some pastQueryDetail
    apply := q
    info := if q.length < 80 then none else some q }

/-- `const start = res != null ? res.from : tree.from`. -/
def resolvedStart (res : Option CompletionResult) (treeFrom : Nat) : Nat :=
  match res with
  | some r => r.fromPos
  | none => treeFrom

/-- `HistoryCompleteStrategy.promQL`, once the inner strategy's result `res`
and the syntax-tree node start `tree.from` are at hand: when the resolved
start is nonzero return `res` unchanged; otherwise build the history candidate
set over `[start, pos]` and, when `res` is non-null, append its options after
the history options. -/
def promQL (queryHistory : List String) (res : Option CompletionResult)
    (treeFrom pos : Nat) : Option CompletionResult :=
  let start := resolvedStart res treeFrom
  if start ≠ 0 then res
  else
    let historyItems : CompletionResult :=
      { fromPos := start
        toPos := pos
        options := queryHistory.map historyOption
        validFor := some historyValidForPattern }
    match res with
    | some r => some { historyItems with options := historyItems.options ++ r.options }
    | none => some historyItems

end HistoryCompleteStrategy

open CustomHTTPPrometheusClient HistoryCompleteStrategy

set_option maxRecDepth 8192

/-- C2: once the body is parsed as an envelope (any response reaching the last
step of `fetchAPI`, here `handleEnvelope`): status `"error"` fails with the
envelope's `error` string, or the fixed (non-blank) fallback when the field is
absent; status `"success"` without `data` fails with the fixed missing-data
message; status `"success"` with `data` returns it. -/
theorem handleEnvelope_spec {T : Type} (env : APIResponse T) :
    (env.status = "error" →
      handleEnvelope env = Except.error (env.error.getD missingErrorFieldMsg)) ∧
    (env.status = "success" → env.data = none →
      handleEnvelope env = Except.error missingDataFieldMsg) ∧
    (∀ d : T, env.status = "success" → env.data = some d →
      handleEnvelope env = Except.ok d) ∧
    missingErrorFieldMsg ≠ "" := by
  refine ⟨?_, ?_, ?_, by decide⟩
  · intro h
    cases he : env.error <;> simp [handleEnvelope, h, he, Option.getD]
  · intro h hd
    simp [handleEnvelope, h, hd]
  · intro d h hd
    simp [handleEnvelope, h, hd]

/-- Witness for C2 at concrete envelopes: an `error` envelope with a message,
one without, a `success` envelope lacking `data`, and a successful one. -/
theorem handleEnvelope_spec_witness :
    handleEnvelope { status := "error", error := some "boom", data := (none : Option Nat) } =
      Except.error "boom" ∧
    handleEnvelope { status := "error", error := none, data := (none : Option Nat) } =
      Except.error missingErrorFieldMsg ∧
    handleEnvelope { status := "success", error := none, data := (none : Option Nat) } =
      Except.error missingDataFieldMsg ∧
    handleEnvelope { status := "success", error := none, data := some (7 : Nat) } =
      Except.ok 7 := by
  refine ⟨?_, ?_, ?_, ?_⟩
  · simpa using
      (handleEnvelope_spec { status := "error", error := some "boom", data := (none : Option Nat) }).1 rfl
  · simpa using
      (handleEnvelope_spec { status := "error", error := none, data := (none : Option Nat) }).1 rfl
  · exact (handleEnvelope_spec
      { status := "success", error := none, data := (none : Option Nat) }).2.1 rfl rfl
  · exact (handleEnvelope_spec
      { status := "success", error := none, data := some (7 : Nat) }).2.2.1 7 rfl rfl

/-- C3: a response that is not ok with a status outside to 400/422/503 makes
`fetchAPI` fail with the response's status text; a response whose status is
one of 400/422/503 proceeds to envelope interpretation regardless of its `ok`
flag. -/
theorem fetchAPI_status_gate {T : Type} (res : HTTPResponse T) :
    (res.ok = false →
      res.status ∉ [badRequest, unprocessableEntity, serviceUnavailable] →
      fetchAPI (Except.ok res) = Except.error res.statusText) ∧
    (res.status ∈ [badRequest, unprocessableEntity, serviceUnavailable] →
      fetchAPI (Except.ok res) = handleEnvelope res.body) := by
  constructor
  · intro h1 h2
    simp [fetchAPI, h1, h2]
  · intro h
    have hnot : ¬(res.ok = false ∧
        res.status ∉ [badRequest, unprocessableEntity, serviceUnavailable]) := by
      intro hc
      exact hc.2 h
    simp only [fetchAPI]
    rw [if_neg hnot]

/-- Witness for C3: a 500 response fails with its status text; a not-ok 422
response is still handed to envelope interpretation (here a successful
envelope, so the data is returned). -/
theorem fetchAPI_status_gate_witness :
    fetchAPI (Except.ok
      { ok := false
        status := 500
        statusText := "Internal Server Error"
        body := { status := "success", data := some ([] : List String), error := none } }) =
      Except.error "Internal Server Error" ∧
    fetchAPI (Except.ok
      { ok := false
        status := 422
        statusText := "Unprocessable Entity"
        body := { status := "success", data := some (["up"] : List String), error := none } }) =
      Except.ok ["up"] := by
  constructor
  · exact (fetchAPI_status_gate
      { ok := false
        status := 500
        statusText := "Internal Server Error"
        body := { status := "success", data := some ([] : List String), error := none } }).1
      rfl (by decide)
  · have h := (fetchAPI_status_gate
      { ok := false
        status := 422
        statusText := "Unprocessable Entity"
        body := { status := "success", data := some (["up"] : List String), error := none } }).2
      (by decide)
    simpa [handleEnvelope] using h

/-- C1: whenever the underlying `fetchAPI` call of any public operation fails
(for any of the modelled reasons: transport rejection, intolerable status,
error envelope, missing data — all of which surface as `Except.error e`), the
operation still resolves (the model is a total function), notifies the
configured error handler exactly once with that failure, and yields its typed
empty default: `[]` for the list-returning operations and the empty record
(modelled `[]`) for `metricMetadata` and `flags`.  Both branches of
`labelNames` and `labelValues` are covered. -/
theorem metadata_ops_degrade_to_empty (e m labelName : String) (hm : m ≠ "")
    (labelsResp valuesResp : Except String (HTTPResponse (List String)))
    (seriesResp : Except String (HTTPResponse (List SeriesRecord)))
    (metadataResp : Except String (HTTPResponse (List (String × List MetricMetadata))))
    (flagsResp : Except String (HTTPResponse (List (String × String))))
    (hLabels : fetchAPI labelsResp = Except.error e)
    (hValues : fetchAPI valuesResp = Except.error e)
    (hSeries : fetchAPI seriesResp = Except.error e)
    (hMeta : fetchAPI metadataResp = Except.error e)
    (hFlags : fetchAPI flagsResp = Except.error e) :
    labelNames true none labelsResp seriesResp = ([], [e]) ∧
    labelNames true (some m) labelsResp seriesResp = ([], [e]) ∧
    labelValues true labelName none valuesResp seriesResp = ([], [e]) ∧
    labelValues true labelName (some m) valuesResp seriesResp = ([], [e]) ∧
    CustomHTTPPrometheusClient.series true seriesResp = ([], [e]) ∧
    metricMetadata true metadataResp = ([], [e]) ∧
    metricNames true valuesResp seriesResp = ([], [e]) ∧
    flags true flagsResp = ([], [e]) := by
  have hmlen : m.length ≠ 0 := by
    intro h0
    apply hm
    have hd : m.data = [] := List.length_eq_zero.mp h0
    cases m
    simp_all
  refine ⟨?_, ?_, ?_, ?_, ?_, ?_, ?_, ?_⟩ <;>
    simp [labelNames, labelValues, CustomHTTPPrometheusClient.series, metricMetadata,
      metricNames, flags, runCatch, hLabels, hValues, hSeries, hMeta, hFlags, hm, hmlen,
      labelNamesFromSeries, labelValuesFromSeries]

/-- Witness for C1 at a concrete failure: every transport rejects with
`"network unreachable"` and the metric / label names are concrete. -/
theorem metadata_ops_degrade_to_empty_witness :
    labelNames true none (Except.error "network unreachable") (Except.error "network unreachable") =
      ([], ["network unreachable"]) ∧
    labelNames true (some "up") (Except.error "network unreachable") (Except.error "network unreachable") =
      ([], ["network unreachable"]) ∧
    labelValues true "job" none (Except.error "network unreachable") (Except.error "network unreachable") =
      ([], ["network unreachable"]) ∧
    labelValues true "job" (some "up") (Except.error "network unreachable") (Except.error "network unreachable") =
      ([], ["network unreachable"]) ∧
    CustomHTTPPrometheusClient.series true (Except.error "network unreachable") =
      ([], ["network unreachable"]) ∧
    metricMetadata true (Except.error "network unreachable") = ([], ["network unreachable"]) ∧
    metricNames true (Except.error "network unreachable") (Except.error "network unreachable") =
      ([], ["network unreachable"]) ∧
    flags true (Except.error "network unreachable") = ([], ["network unreachable"]) :=
  metadata_ops_degrade_to_empty "network unreachable" "up" "job" (by decide)
    (Except.error "network unreachable") (Except.error "network unreachable")
    (Except.error "network unreachable") (Except.error "network unreachable")
    (Except.error "network unreachable") rfl rfl rfl rfl rfl

theorem mem_addLabelName (acc : List String) (key x : String) :
    x ∈ addLabelName acc key ↔ x ∈ acc ∨ (key ≠ "__name__" ∧ x = key) := by
  unfold addLabelName
  by_cases h1 : key = "__name__"
  · simp [h1]
  · by_cases h2 : key ∈ acc
    · simp only [h1, if_neg h1, h2, if_pos h2, ne_eq, not_false_iff, true_and]
      constructor
      · exact Or.inl
      · rintro (hx | rfl)
        · exact hx
        · exact h2
    · simp [h1, h2, List.mem_append]

theorem nodup_addLabelName (acc : List String) (key : String) (h : acc.Nodup) :
    (addLabelName acc key).Nodup := by
  unfold addLabelName
  by_cases h1 : key = "__name__"
  · simpa [h1]
  · by_cases h2 : key ∈ acc
    · simpa [h1, h2]
    · simp only [if_neg h1, if_neg h2]
      refine List.Nodup.append h (List.nodup_singleton key) ?_
      intro a ha hb
      rw [List.mem_singleton] at hb
      exact h2 (hb ▸ ha)

theorem mem_foldl_addLabelName (record : SeriesRecord) :
    ∀ (acc : List String) (x : String),
      x ∈ record.foldl (fun a kv => addLabelName a kv.1) acc ↔
        x ∈ acc ∨ (x ≠ "__name__" ∧ ∃ v, (x, v) ∈ record) := by
  induction record with
  | nil => intro acc x; simp
  | cons kv rest ih =>
    intro acc x
    rw [List.foldl_cons, ih (addLabelName acc kv.1) x, mem_addLabelName]
    constructor
    · rintro ((hx | ⟨hk, rfl⟩) | ⟨hx, v, hv⟩)
      · exact Or.inl hx
      · exact Or.inr ⟨hk, kv.2, by simp⟩
      · exact Or.inr ⟨hx, v, List.mem_cons_of_mem kv hv⟩
    · rintro (hx | ⟨hx, v, hv⟩)
      · exact Or.inl (Or.inl hx)
      · rcases List.mem_cons.mp hv with hv | hv
        · subst hv
          exact Or.inl (Or.inr ⟨hx, rfl⟩)
        · exact Or.inr ⟨hx, v, hv⟩

theorem nodup_foldl_addLabelName (record : SeriesRecord) :
    ∀ acc : List String, acc.Nodup →
      (record.foldl (fun a kv => addLabelName a kv.1) acc).Nodup := by
  induction record with
  | nil => intro acc h; simpa
  | cons kv rest ih =>
    intro acc h
    rw [List.foldl_cons]
    exact ih (addLabelName acc kv.1) (nodup_addLabelName acc kv.1 h)

theorem mem_labelNamesFromSeries_aux (series : List SeriesRecord) :
    ∀ (acc : List String) (x : String),
      x ∈ series.foldl
          (fun acc labelSet => labelSet.foldl (fun a kv => addLabelName a kv.1) acc) acc ↔
        x ∈ acc ∨ (x ≠ "__name__" ∧ ∃ r ∈ series, ∃ v, (x, v) ∈ r) := by
  induction series with
  | nil => intro acc x; simp
  | cons record rest ih =>
    intro acc x
    rw [List.foldl_cons, ih, mem_foldl_addLabelName]
    constructor
    · rintro ((hx | ⟨hx, v, hv⟩) | ⟨hx, r, hr, v, hv⟩)
      · exact Or.inl hx
      · exact Or.inr ⟨hx, record, List.mem_cons_self record rest, v, hv⟩
      · exact Or.inr ⟨hx, r, List.mem_cons_of_mem record hr, v, hv⟩
    · rintro (hx | ⟨hx, r, hr, v, hv⟩)
      · exact Or.inl (Or.inl hx)
      · rcases List.mem_cons.mp hr with hr | hr
        · exact Or.inl (Or.inr ⟨hx, v, hr ▸ hv⟩)
        · exact Or.inr ⟨hx, r, hr, v, hv⟩

theorem mem_labelNamesFromSeries (series : List SeriesRecord) (x : String) :
    x ∈ labelNamesFromSeries series ↔
      x ≠ "__name__" ∧ ∃ r ∈ series, ∃ v, (x, v) ∈ r := by
  unfold labelNamesFromSeries
  rw [mem_labelNamesFromSeries_aux]
  simp

theorem nodup_labelNamesFromSeries (series : List SeriesRecord) :
    (labelNamesFromSeries series).Nodup := by
  unfold labelNamesFromSeries
  generalize hacc : ([] : List String) = acc
  have hn : acc.Nodup := hacc ▸ List.nodup_nil
  clear hacc
  induction series generalizing acc with
  | nil => simpa
  | cons record rest ih =>
    rw [List.foldl_cons]
    exact ih _ (nodup_foldl_addLabelName record acc hn)

/-- C7: when the underlying `series` call succeeds with `records`, the
metric-scoped `labelNames` derivation returns a duplicate-free list whose
underlying set is exactly the set of keys occurring in the records, minus the
reserved `__name__` key. -/
theorem labelNames_metric_eq_series_keys (hc : Bool) (m : String) (hm : m ≠ "")
    (labelsResp : Except String (HTTPResponse (List String)))
    (seriesResp : Except String (HTTPResponse (List SeriesRecord)))
    (records : List SeriesRecord)
    (hok : fetchAPI seriesResp = Except.ok records) :
    ((labelNames hc (some m) labelsResp seriesResp).1).Nodup ∧
    ((labelNames hc (some m) labelsResp seriesResp).1).toFinset =
      ((records.map (fun r => r.map Prod.fst)).flatten.toFinset).erase "__name__" := by
  have hval : (labelNames hc (some m) labelsResp seriesResp).1 =
      labelNamesFromSeries records := by
    simp [labelNames, CustomHTTPPrometheusClient.series, runCatch, hm, hok]
  rw [hval]
  refine ⟨nodup_labelNamesFromSeries records, ?_⟩
  ext x
  rw [Finset.mem_erase, List.mem_toFinset, List.mem_toFinset,
    mem_labelNamesFromSeries, List.mem_flatten]
  constructor
  · rintro ⟨hx, r, hr, v, hv⟩
    exact ⟨hx, r.map Prod.fst, List.mem_map_of_mem _ hr, List.mem_map_of_mem Prod.fst hv⟩
  · rintro ⟨hx, l, hl, hxl⟩
    rcases List.mem_map.mp hl with ⟨r, hr, rfl⟩
    rcases List.mem_map.mp hxl with ⟨⟨a, b⟩, hab, rfl⟩
    exact ⟨hx, r, hr, b, hab⟩

/-- Witness for C7: two concrete records sharing a key; the derived label
names are `["job", "instance"]`, duplicate-free, and their set is the key set
minus `__name__`. -/
theorem labelNames_metric_eq_series_keys_witness :
    ((labelNames true (some "up") (Except.error "unused")
        (Except.ok
          { ok := true
            status := 200
            statusText := "OK"
            body :=
              { status := "success"
                data := some [[("__name__", "up"), ("job", "api")],
                  [("job", "api"), ("instance", "x")]]
                error := none } })).1).Nodup ∧
    ((labelNames true (some "up") (Except.error "unused")
        (Except.ok
          { ok := true
            status := 200
            statusText := "OK"
            body :=
              { status := "success"
                data := some [[("__name__", "up"), ("job", "api")],
                  [("job", "api"), ("instance", "x")]]
                error := none } })).1).toFinset =
      ((([[("__name__", "up"), ("job", "api")],
          [("job", "api"), ("instance", "x")]] : List SeriesRecord).map
            (fun r => r.map Prod.fst)).flatten.toFinset).erase "__name__" :=
  labelNames_metric_eq_series_keys true "up" (by decide) (Except.error "unused")
    (Except.ok
      { ok := true
        status := 200
        statusText := "OK"
        body :=
          { status := "success"
            data := some [[("__name__", "up"), ("job", "api")],
              [("job", "api"), ("instance", "x")]]
            error := none } })
    [[("__name__", "up"), ("job", "api")], [("job", "api"), ("instance", "x")]]
    (by simp [fetchAPI, handleEnvelope])

theorem addLabelValue_reserved (acc : List String) (kv : String × String) :
    addLabelValue "__name__" acc kv = acc := by
  unfold addLabelValue
  by_cases h : kv.1 = "__name__" <;> simp [h]

theorem labelValuesFromSeries_reserved (series : List SeriesRecord) :
    labelValuesFromSeries "__name__" series = [] := by
  unfold labelValuesFromSeries
  generalize ([] : List String) = acc
  induction series generalizing acc with
  | nil => simp
  | cons record rest ih =>
    rw [List.foldl_cons]
    have hrec : record.foldl (addLabelValue "__name__") acc = acc := by
      induction record generalizing acc with
      | nil => simp
      | cons kv rest2 ih2 =>
        rw [List.foldl_cons, addLabelValue_reserved]
        exact ih2 acc
    rw [hrec]
    exact ih acc

/-- C10: for a non-empty metric name, `labelValues` requested for the reserved
`__name__` label always resolves to the empty list — whatever the outcome of
the underlying `series` request, including success with non-empty records —
because the derivation skips the reserved key before comparing keys against
the requested label. -/
theorem labelValues_reserved_always_empty (hc : Bool) (m : String) (hm : m ≠ "")
    (valuesResp : Except String (HTTPResponse (List String)))
    (seriesResp : Except String (HTTPResponse (List SeriesRecord))) :
    (labelValues hc "__name__" (some m) valuesResp seriesResp).1 = [] := by
  have hmlen : m.length ≠ 0 := by
    intro h0
    apply hm
    have hd : m.data = [] := List.length_eq_zero.mp h0
    cases m
    simp_all
  simp [labelValues, hmlen, labelValuesFromSeries_reserved]

/-- Witness for C10: a successful `series` response with a record that does
carry a `__name__` value; `labelValues("__name__", "up")` still resolves to
`[]`. -/
theorem labelValues_reserved_always_empty_witness :
    (labelValues true "__name__" (some "up") (Except.error "unused")
        (Except.ok
          { ok := true
            status := 200
            statusText := "OK"
            body :=
              { status := "success"
                data := some [[("__name__", "up"), ("job", "api")]]
                error := none } })).1 = [] :=
  labelValues_reserved_always_empty true "up" (by decide) (Except.error "unused")
    (Except.ok
      { ok := true
        status := 200
        statusText := "OK"
        body :=
          { status := "success"
            data := some [[("__name__", "up"), ("job", "api")]]
            error := none } })

theorem historyOption_truncated_ne (q : String) (h : 80 ≤ q.length) :
    (q.take 76) ++ "..." ≠ q := by
  intro he
  have hl := congrArg String.length he
  rw [String.length_append, String.take_eq, String.mk_length, List.length_take] at hl
  have hdl : q.data.length = q.length := rfl
  have hdots : ("..." : String).length = 3 := rfl
  rw [hdots, hdl] at hl
  have h76 : min 76 q.length = 76 := Nat.min_eq_left (by omega)
  rw [h76] at hl
  omega

/-- C8: when the resolved start offset (the inner result's `from` when the
inner result is non-null, otherwise the start of the syntax node at the
cursor) is nonzero, `promQL` returns the inner result unchanged — no history
options are added. -/
theorem promQL_nonzero_start_returns_inner (queryHistory : List String)
    (res : Option CompletionResult) (treeFrom pos : Nat)
    (h : resolvedStart res treeFrom ≠ 0) :
    promQL queryHistory res treeFrom pos = res := by
  unfold promQL
  simp [h]

/-- Witness for C8: a non-null inner result starting at offset 3 is returned
unchanged (and with `res` null, a nonzero node start does the same). -/
theorem promQL_nonzero_start_returns_inner_witness :
    promQL ["up"] (some { fromPos := 3, toPos := 5, options := [], validFor := none }) 9 5 =
      some { fromPos := 3, toPos := 5, options := [], validFor := none } ∧
    promQL ["up"] none 4 5 = none := by
  constructor
  · exact promQL_nonzero_start_returns_inner ["up"]
      (some { fromPos := 3, toPos := 5, options := [], validFor := none }) 9 5 (by decide)
  · exact promQL_nonzero_start_returns_inner ["up"] none 4 5 (by decide)

/-- C9: when the inner result is non-null and the resolved start offset is 0,
`promQL` returns a candidate whose options are the history options followed by
the inner options (each group's internal order preserved), whose insertion
range runs from 0 to the cursor position, and whose `validFor` is the history
validity pattern — the inner result's own range and pattern are discarded. -/
theorem promQL_zero_start_merges_history (queryHistory : List String)
    (inner : CompletionResult) (treeFrom pos : Nat) (h : inner.fromPos = 0) :
    promQL queryHistory (some inner) treeFrom pos =
      some { fromPos := 0
             toPos := pos
             options := queryHistory.map historyOption ++ inner.options
             validFor := some historyValidForPattern } := by
  unfold promQL resolvedStart
  simp [h]

/-- Witness for C9: an inner result at offset 0 with its own range `[0, 9]`
and pattern `"z"`; the merged candidate keeps the history range `[0, 2]` and
pattern and appends the inner option after the history option. -/
theorem promQL_zero_start_merges_history_witness :
    promQL ["up"]
        (some { fromPos := 0
                toPos := 9
                options := [{ label := "x", apply := "x" }]
                validFor := some "z" }) 7 2 =
      some { fromPos := 0
             toPos := 2
             options := ["up"].map historyOption ++ [{ label := "x", apply := "x" }]
             validFor := some historyValidForPattern } :=
  promQL_zero_start_merges_history ["up"]
    { fromPos := 0
      toPos := 9
      options := [{ label := "x", apply := "x" }]
      validFor := some "z" } 7 2 rfl

/-- C6: for every history entry, the constructed option inserts the full
untruncated entry (`apply`); its label is the entry itself when the length is
strictly below 80 and the first 76 characters plus the ellipsis marker
otherwise; and `info` carries the full entry exactly when the label was
truncated (i.e. differs from the entry), otherwise it is unset. -/
theorem historyOption_spec (q : String) :
    (historyOption q).apply = q ∧
    (q.length < 80 → (historyOption q).label = q ∧ (historyOption q).info = none) ∧
    (80 ≤ q.length →
      (historyOption q).label = (q.take 76) ++ "..." ∧ (historyOption q).info = some q) ∧
    ((historyOption q).info = some q ↔ (historyOption q).label ≠ q) := by
  by_cases h : q.length < 80
  · refine ⟨rfl, fun _ => ⟨?_, ?_⟩, fun h2 => absurd h2 (by omega), ?_⟩
    · simp [historyOption, h]
    · simp [historyOption, h]
    · simp [historyOption, h]
  · have h80 : 80 ≤ q.length := by omega
    refine ⟨rfl, fun h2 => absurd h2 h, fun _ => ⟨?_, ?_⟩, ?_⟩
    · simp [historyOption, h]
    · simp [historyOption, h]
    · have hl : (historyOption q).label = (q.take 76) ++ "..." := by
        simp [historyOption, h]
      have hi : (historyOption q).info = some q := by
        simp [historyOption, h]
      rw [hl, hi]
      simp [historyOption_truncated_ne q h80]

/-- Witness for C6 on both sides of the boundary: a short entry and an
81-character entry. -/
theorem historyOption_spec_witness :
    (historyOption "up").apply = "up" ∧
    (historyOption "up").label = "up" ∧
    (historyOption "up").info = none ∧
    (historyOption "aaaaaaaaaaaaaaaaaaaaaaaaaaaaaaaaaaaaaaaaaaaaaaaaaaaaaaaaaaaaaaaaaaaaaaaaaaaaaaaaa").label =
      ("aaaaaaaaaaaaaaaaaaaaaaaaaaaaaaaaaaaaaaaaaaaaaaaaaaaaaaaaaaaaaaaaaaaaaaaaaaaaaaaaa".take 76) ++ "..." ∧
    (historyOption "aaaaaaaaaaaaaaaaaaaaaaaaaaaaaaaaaaaaaaaaaaaaaaaaaaaaaaaaaaaaaaaaaaaaaaaaaaaaaaaaa").info =
      some "aaaaaaaaaaaaaaaaaaaaaaaaaaaaaaaaaaaaaaaaaaaaaaaaaaaaaaaaaaaaaaaaaaaaaaaaaaaaaaaaa" := by
  obtain ⟨ha1, hshort, _, _⟩ := historyOption_spec "up"
  obtain ⟨_, _, hlong, _⟩ :=
    historyOption_spec "aaaaaaaaaaaaaaaaaaaaaaaaaaaaaaaaaaaaaaaaaaaaaaaaaaaaaaaaaaaaaaaaaaaaaaaaaaaaaaaaa"
  have hs := hshort (by decide)
  have hl := hlong (by decide)
  exact ⟨ha1, hs.1, hs.2, hl.1, hl.2⟩

/-- C5 counterexample: a history entry of exactly 80 characters is NOT
returned with its label unmodified — the length check `q.length < 80` is
strict, so an 80-character entry is truncated to its first 76 characters plus
the ellipsis marker (and its `info` is set). -/
theorem history_entry_80_truncated_counterexample :
    ("aaaaaaaaaaaaaaaaaaaaaaaaaaaaaaaaaaaaaaaaaaaaaaaaaaaaaaaaaaaaaaaaaaaaaaaaaaaaaaaa" : String).length = 80 ∧
    (historyOption "aaaaaaaaaaaaaaaaaaaaaaaaaaaaaaaaaaaaaaaaaaaaaaaaaaaaaaaaaaaaaaaaaaaaaaaaaaaaaaaa").label ≠
      "aaaaaaaaaaaaaaaaaaaaaaaaaaaaaaaaaaaaaaaaaaaaaaaaaaaaaaaaaaaaaaaaaaaaaaaaaaaaaaaa" := by
  constructor
  · decide
  · decide

/-- C5 amended: a history entry of exactly 80 characters is truncated exactly
like an 81-character one — its label is the first 76 characters followed by
the ellipsis marker (so the label is modified) and its `info` equals the full
string; an entry of 79 characters is returned with its label unmodified. -/
theorem history_truncation_boundary_amended (q : String) :
    (q.length = 80 ∨ q.length = 81 →
      (historyOption q).label = (q.take 76) ++ "..." ∧
      (historyOption q).info = some q ∧
      (historyOption q).label ≠ q) ∧
    (q.length = 79 → (historyOption q).label = q ∧ (historyOption q).info = none) := by
  constructor
  · intro h
    have h80 : 80 ≤ q.length := by rcases h with h | h <;> omega
    have hlt : ¬q.length < 80 := by omega
    have hl : (historyOption q).label = (q.take 76) ++ "..." := by
      simp [historyOption, hlt]
    refine ⟨hl, by simp [historyOption, hlt], ?_⟩
    rw [hl]
    exact historyOption_truncated_ne q h80
  · intro h
    have hlt : q.length < 80 := by omega
    exact ⟨by simp [historyOption, hlt], by simp [historyOption, hlt]⟩

/-- Witness for the amended C5 at concrete 80- and 79-character entries. -/
theorem history_truncation_boundary_amended_witness :
    (historyOption "aaaaaaaaaaaaaaaaaaaaaaaaaaaaaaaaaaaaaaaaaaaaaaaaaaaaaaaaaaaaaaaaaaaaaaaaaaaaaaaa").info =
      some "aaaaaaaaaaaaaaaaaaaaaaaaaaaaaaaaaaaaaaaaaaaaaaaaaaaaaaaaaaaaaaaaaaaaaaaaaaaaaaaa" ∧
    (historyOption "bbbbbbbbbbbbbbbbbbbbbbbbbbbbbbbbbbbbbbbbbbbbbbbbbbbbbbbbbbbbbbbbbbbbbbbbbbbbbbb").label =
      "bbbbbbbbbbbbbbbbbbbbbbbbbbbbbbbbbbbbbbbbbbbbbbbbbbbbbbbbbbbbbbbbbbbbbbbbbbbbbbb" := by
  obtain ⟨h80, _⟩ :=
    history_truncation_boundary_amended
      "aaaaaaaaaaaaaaaaaaaaaaaaaaaaaaaaaaaaaaaaaaaaaaaaaaaaaaaaaaaaaaaaaaaaaaaaaaaaaaaa"
  obtain ⟨_, h79⟩ :=
    history_truncation_boundary_amended
      "bbbbbbbbbbbbbbbbbbbbbbbbbbbbbbbbbbbbbbbbbbbbbbbbbbbbbbbbbbbbbbbbbbbbbbbbbbbbbbb"
  exact ⟨(h80 (Or.inl (by decide))).2.1, (h79 (by decide)).1⟩

/-- C4 counterexample: with the configured `httpMethod` set to POST, the
direct `labelValues` request does NOT move its parameters into the request
body: the source bypasses `buildRequest` on this path, so the parameters are
serialized into the query string and the fetch init carries neither a body
nor a method — contradicting the claim that under POST the parameters are
form-encoded into the body and the query string is empty.  (The model
`labelValuesDirectRequest` takes no method argument at all because the source
never consults `this.httpMethod` in this branch.) -/
theorem labelValues_direct_post_counterexample :
    (labelValuesDirectRequest "/api/v1" "job" "S" "E").1 =
      "/api/v1/label/job/values?start=S&end=E" ∧
    (labelValuesDirectRequest "/api/v1" "job" "S" "E").2 =
      { method := none, body := none } := by
  constructor
  · rfl
  · rfl

/-- C4 amended: the GET/POST parameter-placement rule holds for the two
requests built through `buildRequest` — the direct `labelNames` query and
`series` — where switching the method from POST to GET moves all parameters
from the body to the query string and empties the body; the direct
`labelValues` request, however, always serializes its parameters into the
query string with no body (and no explicit method), whatever the configured
method. -/
theorem request_construction_amended (apiPrefix startS endS selector labelName : String) :
    labelNamesRequest "GET" apiPrefix startS endS =
      (labelsEndpoint apiPrefix ++ "?" ++
          urlSearchParamsToString [("start", startS), ("end", endS)],
        { method := some "GET", body := none }) ∧
    labelNamesRequest "POST" apiPrefix startS endS =
      (labelsEndpoint apiPrefix,
        { method := some "POST", body := some [("start", startS), ("end", endS)] }) ∧
    seriesRequest "GET" apiPrefix startS endS selector =
      (seriesEndpoint apiPrefix ++ "?" ++
          urlSearchParamsToString [("start", startS), ("end", endS), ("match[]", selector)],
        { method := some "GET", body := none }) ∧
    seriesRequest "POST" apiPrefix startS endS selector =
      (seriesEndpoint apiPrefix,
        { method := some "POST",
          body := some [("start", startS), ("end", endS), ("match[]", selector)] }) ∧
    labelValuesDirectRequest apiPrefix labelName startS endS =
      (labelValuesEndpointFor apiPrefix labelName ++ "?" ++
          urlSearchParamsToString [("start", startS), ("end", endS)],
        { method := none, body := none }) := by
  refine ⟨rfl, rfl, rfl, rfl, rfl⟩
